import Mathlib

/-!
Shallow embedding of `runsge.py`, a library wrapping `qsub` for control of
files and output.

The Python module has two classes:

* `Job` — a record of one submission (index, job id, script name, output and
  error file paths, status, accumulated output string);
* `Submitter` — the tracker: it submits SGE scripts through the external
  `qsub` tool, stores the resulting `Job`s in a list, and polls the
  filesystem (`output_<i>` / `error_<i>` files) until every job is terminal.

The embedding models:

* the filesystem as a finite association list from file names to contents
  (a missing key is a missing file);
* the external `qsub` spawn as an explicit input (`SpawnResult`): either the
  executable cannot be invoked at all (Python's `Popen` raises
  `FileNotFoundError`) or it ran and produced some captured standard output;
* Python exceptions as the `Except PyError` monad: any statement that raises
  aborts the surrounding call chain, exactly as an uncaught Python exception
  propagates to the caller;
* byte strings as `List Char` (all the data involved is ASCII);
* `print` calls and `os.sync()` / `time.sleep(1)` as no-ops (they do not
  change any modelled state).

Line numbers in comments refer to `src/runsge.py`.
-/

/-- Python exceptions that the embedded code can raise. -/
inductive PyError where
  /-- Python `NameError`: an unbound variable name was referenced
      (line 97 uses the unbound name `ob`). -/
  | nameError
  /-- Python `ValueError`: `int()` applied to a string that is not a valid
      integer literal. -/
  | valueError
  /-- Python `FileNotFoundError`: `Popen` could not find the `qsub` executable. -/
  | fileNotFoundError
  /-- Python `IndexError`: list subscript out of range. -/
  | indexError
  deriving DecidableEq, Repr

/-- The `class JobStatus(Enum)` (lines 17-22): possible states of a job. -/
inductive JobStatus where
  /-- Submission failed. -/
  | FAILED
  /-- Queued (or running). -/
  | RUNNING
  /-- Finished (the output can be read) without apparent errors. -/
  | FINISHED
  /-- Finished but with an error in stderr. -/
  | ERROR
  deriving DecidableEq, Repr

/-- The `class Job` (lines 25-38): struct for the submitted job. -/
structure Job where
  index : Nat
  job_id : Int
  sge_script : String
  output_file : String
  error_file : String
  status : JobStatus
  output_string : String
  deriving DecidableEq, Repr

/-- Constructor `Job.__init__` (lines 28-38): the status is `FAILED` exactly when the
given job id is the sentinel `-1`, otherwise `RUNNING`; the accumulated
output starts empty. -/
def Job.init (index : Nat) (sge_script : String) (job_id : Int)
    (output_file error_file : String) : Job :=
  { index := index
    job_id := job_id
    sge_script := sge_script
    output_file := output_file
    error_file := error_file
    status := if job_id = -1 then JobStatus.FAILED else JobStatus.RUNNING
    output_string := "" }

/-- The filesystem visible to the tracker: an association list from file
names to file contents.  A name that is not a key is a file that does not
exist. -/
abbrev FS : Type := List (String × String)

/-- Combined `os.path.isfile` / `open(name).read()`: the content of the
file, or `none` when no such file exists. -/
def FS.read (fs : FS) (name : String) : Option String :=
  (List.find? (fun p => p.1 == name) fs).map (fun p => p.2)

/-- Python `os.remove`: delete every entry for the given name. -/
def FS.remove (fs : FS) (name : String) : FS :=
  List.filter (fun p => p.1 != name) fs

/-- The `class Submitter` state (lines 43-45): the job list and the running
index counter. -/
structure Submitter where
  jobs : List Job
  current_index : Nat
  deriving DecidableEq, Repr

/-- Constructor `Submitter.__init__` (lines 43-45). -/
def Submitter.init : Submitter := { jobs := [], current_index := 0 }

/-- The outcome of `Popen(['qsub', ...])` + `communicate()` (lines 50-52),
made an explicit input of the model.  `unavailable` is the case where the
`qsub` executable cannot be invoked at all, in which `Popen` raises
`FileNotFoundError`; `output s` is the case where the external process ran
and `s` is its captured standard output. -/
inductive SpawnResult where
  | unavailable
  | output (stdout_data : List Char)
  deriving DecidableEq, Repr

/-- Helper for `bytes.find`: `bytesFindAux pat hay i` is `i + j` for the least
`j` such that `pat` occurs in `hay` at position `j`, and `-1` when there is
no occurrence. -/
def bytesFindAux (pat : List Char) : List Char → Nat → Int
  | [], i => if pat.isPrefixOf ([] : List Char) then (i : Int) else -1
  | c :: t, i =>
      if pat.isPrefixOf (c :: t) then (i : Int) else bytesFindAux pat t (i + 1)

/-- Python `hay.find(pat)` on byte strings: the least position of an
occurrence of `pat` in `hay`, or `-1` when there is none. -/
def bytesFind (hay pat : List Char) : Int :=
  bytesFindAux pat hay 0

/-- The ASCII whitespace bytes that Python's `int()` strips from a byte
string before parsing. -/
def isPySpace (c : Char) : Bool :=
  c == ' ' || c == '\t' || c == '\n' || c == '\r' || c == '\x0b' || c == '\x0c'

/-- Strip leading and trailing ASCII whitespace, as `int()` does. -/
def pyStrip (s : List Char) : List Char :=
  ((s.dropWhile isPySpace).reverse.dropWhile isPySpace).reverse

/-- After the first digit, an integer literal body is digits with single
underscores allowed strictly between digits. -/
def digitRunRest : List Char → Bool
  | [] => true
  | [c] => c.isDigit
  | c :: d :: rest =>
      if c.isDigit then digitRunRest (d :: rest)
      else if c = '_' then d.isDigit && digitRunRest rest
      else false

/-- A valid unsigned decimal integer literal body for Python `int()`:
nonempty, starts with a digit, digits with single underscores strictly
between digits. -/
def pyDigits : List Char → Bool
  | [] => false
  | c :: rest => c.isDigit && digitRunRest rest

/-- The numeric value of a digit run (underscores skipped). -/
def pyDigitsVal (l : List Char) : Nat :=
  (l.filter (fun c => c ≠ '_')).foldl (fun a c => 10 * a + (c.toNat - '0'.toNat)) 0

/-- Python `int()` applied to an ASCII byte string (line 60): strip
whitespace, allow one optional sign, then require a valid digit run;
anything else raises `ValueError`. -/
def pyInt (s : List Char) : Except PyError Int :=
  match pyStrip s with
  | [] => Except.error PyError.valueError
  | c :: rest =>
      if c = '+' then
        if pyDigits rest then Except.ok (pyDigitsVal rest : Int)
        else Except.error PyError.valueError
      else if c = '-' then
        if pyDigits rest then Except.ok (-(pyDigitsVal rest : Int))
        else Except.error PyError.valueError
      else
        if pyDigits (c :: rest) then Except.ok (pyDigitsVal (c :: rest) : Int)
        else Except.error PyError.valueError

/-- The success marker `b'Your job '` (line 55), 9 characters. -/
def successMarker : List Char := "Your job ".toList

/-- Lines 54-61 of `__submit_sge_script`: look for the job id in the
captured standard output.  `first = stdout_data.find(b'Your job ')`; if
absent return `-1`; otherwise skip the marker, find the next space in the
remainder, and apply `int()` to the slice in between (which raises
`ValueError` when that slice is not a valid integer literal). -/
def parseJobId (stdout_data : List Char) : Except PyError Int :=
  let first := bytesFind stdout_data successMarker
  if first = -1 then Except.ok (-1)
  else
    let first : Nat := first.toNat + successMarker.length
    let inner := bytesFind (stdout_data.drop first) [' ']
    let last : Int := inner + (first : Int)
    pyInt ((stdout_data.drop first).take (last - (first : Int)).toNat)

/-- Method `Submitter.__submit_sge_script` (lines 47-61): spawn `qsub` (lines
50-52, here the explicit `SpawnResult` input; a missing executable raises
`FileNotFoundError`), then parse the job id out of the captured standard
output. -/
def Submitter.submit_sge_script (spawn : SpawnResult) : Except PyError Int :=
  match spawn with
  | SpawnResult.unavailable => Except.error PyError.fileNotFoundError
  | SpawnResult.output stdout_data => parseJobId stdout_data

/-- Method `Submitter.submit` (lines 63-74): derive the output and error file
names from the current index, increment the counter, submit, build the
`Job` and append it to the list.  The `print` on line 71 is a no-op here.
An exception from `__submit_sge_script` propagates after the counter was
already incremented (line 69 runs before line 70). -/
def Submitter.submit (st : Submitter) (spawn : SpawnResult) (name : String) :
    Except PyError (Job × Submitter) :=
  let index := st.current_index
  let output_file := "output_" ++ toString index
  let error_file := "error_" ++ toString index
  let st1 : Submitter := { st with current_index := st.current_index + 1 }
  match Submitter.submit_sge_script spawn with
  | Except.error e => Except.error e
  | Except.ok job_id =>
      let job := Job.init index name job_id output_file error_file
      Except.ok (job, { st1 with jobs := st1.jobs ++ [job] })

/-- The body of `Submitter.__check_for_finish` (lines 76-105) acting on one
job and the filesystem.  Returns the boolean result together with the
updated job and filesystem, or the Python exception it raises.

Faithful points: line 97 reads `ob.output_string += open(job.error_file,
'r').read()` where the name `ob` is unbound, so reaching that statement
raises `NameError` before the error file is even opened; on the
empty-error-file branch line 100 sets `FINISHED`, and in every non-raising
completion path lines 101-105 append the output file content, delete the
output file, and set `FINISHED` (line 103's `print` is a no-op). -/
def checkForFinish (fs : FS) (job : Job) : Except PyError (Bool × Job × FS) :=
  if job.status ≠ JobStatus.RUNNING then Except.ok (true, job, fs)
  else
    match FS.read fs job.output_file with
    | none => Except.ok (false, job, fs)
    | some out =>
        -- os.sync() (line 86) has no effect on the modelled state
        if out.length = 0 then Except.ok (false, job, fs)
        else
          match FS.read fs job.error_file with
          | some err =>
              if err.length ≠ 0 then
                -- line 97: the name `ob` is unbound; raises NameError
                Except.error PyError.nameError
              else
                let job1 := { job with status := JobStatus.FINISHED }
                let job2 := { job1 with
                              output_string := job1.output_string ++ out }
                Except.ok (true, { job2 with status := JobStatus.FINISHED },
                           FS.remove fs job.output_file)
          | none =>
              let job2 := { job with
                            output_string := job.output_string ++ out }
              Except.ok (true, { job2 with status := JobStatus.FINISHED },
                         FS.remove fs job.output_file)

/-- Method `Submitter.__check_for_finish` (lines 76-105) proper: fetch
`self.jobs[job_index]` (an out-of-range subscript raises `IndexError`),
run the body, and store the updated job back at the same position. -/
def Submitter.check_for_finish (st : Submitter) (fs : FS) (job_index : Nat) :
    Except PyError (Bool × Submitter × FS) :=
  match st.jobs[job_index]? with
  | none => Except.error PyError.indexError
  | some job =>
      match checkForFinish fs job with
      | Except.error e => Except.error e
      | Except.ok (b, job2, fs2) =>
          Except.ok (b, { st with jobs := st.jobs.set job_index job2 }, fs2)

/-- The loop of `Submitter.__check_finished_jobs` (lines 109-113) over a
list of indices, threading the `finished` flag: `finished` is cleared when
a poll returns `False` and is never set back. -/
def checkJobsLoop : List Nat → Submitter → FS → Bool →
    Except PyError (Bool × Submitter × FS)
  | [], _st, fs, finished => Except.ok (finished, _st, fs)
  | i :: rest, st, fs, finished =>
      match Submitter.check_for_finish st fs i with
      | Except.error e => Except.error e
      | Except.ok (b, st2, fs2) => checkJobsLoop rest st2 fs2 (finished && b)

/-- Method `Submitter.__check_finished_jobs` (lines 107-113): poll every index in
`range(self.current_index)` in ascending order, with no early exit; return
`True` only when every poll returned `True`. -/
def Submitter.check_finished_jobs (st : Submitter) (fs : FS) :
    Except PyError (Bool × Submitter × FS) :=
  checkJobsLoop (List.range st.current_index) st fs true

/-- Method `Submitter.wait` (lines 115-118), with explicit fuel in place of real
time and an environment `env` standing for whatever the external queue
writes to the filesystem during each one-second sleep.  The result is
`some` of the final state when the loop exits within the fuel, `none` when
the fuel runs out with jobs still pending, and an error when a poll raises. -/
def Submitter.wait (env : Nat → FS → FS) :
    Nat → Submitter → FS → Except PyError (Option (Submitter × FS))
  | 0, _, _ => Except.ok none
  | fuel + 1, st, fs =>
      match Submitter.check_finished_jobs st fs with
      | Except.error e => Except.error e
      | Except.ok (true, st2, fs2) => Except.ok (some (st2, fs2))
      | Except.ok (false, st2, fs2) =>
          Submitter.wait env fuel st2 (env fuel fs2)

/-- A sequence of calls to `Submitter.submit`, one per element: each
element supplies the spawn outcome and the script name for that call.  An
exception from any call aborts the run. -/
def runSubmits : Submitter → List (SpawnResult × String) →
    Except PyError Submitter
  | st, [] => Except.ok st
  | st, (spawn, name) :: rest =>
      match Submitter.submit st spawn name with
      | Except.error e => Except.error e
      | Except.ok (_, st2) => runSubmits st2 rest

/-! ## Case analysis of one poll of one job -/

/-- Master case analysis of a non-raising run of the `__check_for_finish`
body: either the call returned without touching anything (terminal job, or
output file missing/empty), or it consumed the output file, appended its
content and set the status to `FINISHED`. -/
theorem checkForFinish_ok_cases (fs : FS) (job : Job) {b : Bool} {j2 : Job}
    {fs2 : FS} (h : checkForFinish fs job = Except.ok (b, j2, fs2)) :
    (j2 = job ∧ fs2 = fs ∧
      ((b = true ∧ job.status ≠ JobStatus.RUNNING) ∨
       (b = false ∧ job.status = JobStatus.RUNNING))) ∨
    (b = true ∧ job.status = JobStatus.RUNNING ∧
      ∃ out, FS.read fs job.output_file = some out ∧ out.length ≠ 0 ∧
        j2 = { job with status := JobStatus.FINISHED,
                        output_string := job.output_string ++ out } ∧
        fs2 = FS.remove fs job.output_file) := by
  unfold checkForFinish at h
  split at h
  case isTrue hs =>
    simp only [Except.ok.injEq, Prod.mk.injEq] at h
    obtain ⟨hb, hj, hf⟩ := h
    exact Or.inl ⟨hj.symm, hf.symm, Or.inl ⟨hb.symm, hs⟩⟩
  case isFalse hs =>
    have hrun : job.status = JobStatus.RUNNING := by
      by_contra hc; exact hs hc
    split at h
    · simp only [Except.ok.injEq, Prod.mk.injEq] at h
      obtain ⟨hb, hj, hf⟩ := h
      exact Or.inl ⟨hj.symm, hf.symm, Or.inr ⟨hb.symm, hrun⟩⟩
    case h_2 out hout =>
      split at h
      case isTrue hlen =>
        simp only [Except.ok.injEq, Prod.mk.injEq] at h
        obtain ⟨hb, hj, hf⟩ := h
        exact Or.inl ⟨hj.symm, hf.symm, Or.inr ⟨hb.symm, hrun⟩⟩
      case isFalse hlen =>
        split at h
        case h_1 err herr =>
          split at h
          · exact absurd h (by simp)
          · simp only [Except.ok.injEq, Prod.mk.injEq] at h
            obtain ⟨hb, hj, hf⟩ := h
            exact Or.inr ⟨hb.symm, hrun, out, hout, hlen,
              hj.symm, hf.symm⟩
        case h_2 herr =>
          simp only [Except.ok.injEq, Prod.mk.injEq] at h
          obtain ⟨hb, hj, hf⟩ := h
          exact Or.inr ⟨hb.symm, hrun, out, hout, hlen, hj.symm, hf.symm⟩

/-- A job that is not `RUNNING` is reported terminal at once, with no
mutation of the job or the filesystem. -/
theorem checkForFinish_not_running (fs : FS) (job : Job)
    (h : job.status ≠ JobStatus.RUNNING) :
    checkForFinish fs job = Except.ok (true, job, fs) := by
  unfold checkForFinish
  rw [if_pos h]

/-- The boolean a poll returns is `true` exactly when the job is terminal
afterwards. -/
theorem checkForFinish_true_iff (fs : FS) (job : Job) {b : Bool} {j2 : Job}
    {fs2 : FS} (h : checkForFinish fs job = Except.ok (b, j2, fs2)) :
    (b = true ↔ j2.status ≠ JobStatus.RUNNING) := by
  rcases checkForFinish_ok_cases fs job h with
    ⟨hj, _, ⟨hb, hs⟩ | ⟨hb, hs⟩⟩ | ⟨hb, _, out, _, _, hj, _⟩
  · subst hj; subst hb; simpa using hs
  · subst hj; subst hb; simp [hs]
  · subst hj; subst hb; simp

/-- A poll that returns `false` changed nothing. -/
theorem checkForFinish_false_eq (fs : FS) (job : Job) {j2 : Job} {fs2 : FS}
    (h : checkForFinish fs job = Except.ok (false, j2, fs2)) :
    j2 = job ∧ fs2 = fs := by
  rcases checkForFinish_ok_cases fs job h with
    ⟨hj, hf, ⟨hb, _⟩ | _⟩ | ⟨hb, _⟩
  · exact absurd hb.symm (by simp)
  · exact ⟨hj, hf⟩
  · exact absurd hb.symm (by simp)

/-- A poll never changes a job's identity fields, and the status it leaves
behind is the old one or `FINISHED` — in particular `ERROR` is never newly
assigned, and `job_id` together with the `FAILED` status is fixed. -/
theorem checkForFinish_fields (fs : FS) (job : Job) {b : Bool} {j2 : Job}
    {fs2 : FS} (h : checkForFinish fs job = Except.ok (b, j2, fs2)) :
    j2.index = job.index ∧ j2.job_id = job.job_id ∧
    j2.sge_script = job.sge_script ∧ j2.output_file = job.output_file ∧
    j2.error_file = job.error_file ∧
    (j2.status = job.status ∨ j2.status = JobStatus.FINISHED) := by
  rcases checkForFinish_ok_cases fs job h with
    ⟨hj, _, _⟩ | ⟨_, _, out, _, _, hj, _⟩ <;>
    subst hj <;> simp

/-! ## The polling loop -/

/-- Successful `__check_for_finish` on an index: the job existed, its poll
succeeded, and it was stored back at the same position. -/
theorem check_for_finish_ok {st : Submitter} {fs : FS} {i : Nat} {b : Bool}
    {st2 : Submitter} {fs2 : FS}
    (h : Submitter.check_for_finish st fs i = Except.ok (b, st2, fs2)) :
    ∃ job j2, st.jobs[i]? = some job ∧
      checkForFinish fs job = Except.ok (b, j2, fs2) ∧
      st2.jobs = st.jobs.set i j2 ∧ st2.current_index = st.current_index := by
  unfold Submitter.check_for_finish at h
  split at h
  · exact absurd h (by simp)
  case h_2 job hjob =>
    split at h
    · exact absurd h (by simp)
    case h_2 b2 j2 fs3 hpoll =>
      simp only [Except.ok.injEq, Prod.mk.injEq] at h
      obtain ⟨hb, hst, hfs⟩ := h
      subst hb; subst hfs
      exact ⟨job, j2, hjob, hpoll, by rw [← hst], by rw [← hst]⟩

/-- A successful pass of the `__check_finished_jobs` loop preserves the
number of jobs and the index counter. -/
theorem checkJobsLoop_sizes :
    ∀ (idxs : List Nat) (st : Submitter) (fs : FS) (a : Bool)
      {b : Bool} {st2 : Submitter} {fs2 : FS},
      checkJobsLoop idxs st fs a = Except.ok (b, st2, fs2) →
      st2.jobs.length = st.jobs.length ∧
      st2.current_index = st.current_index
  | [], st, fs, a, b, st2, fs2, h => by
      simp only [checkJobsLoop, Except.ok.injEq, Prod.mk.injEq] at h
      obtain ⟨-, hst, -⟩ := h
      rw [← hst]; exact ⟨rfl, rfl⟩
  | i :: rest, st, fs, a, b, st2, fs2, h => by
      unfold checkJobsLoop at h
      split at h
      · exact absurd h (by simp)
      case h_2 bi st1 fs1 hpoll =>
        obtain ⟨job, j2, hjob, hcff, hjobs, hidx⟩ := check_for_finish_ok hpoll
        obtain ⟨hlen, hci⟩ := checkJobsLoop_sizes rest st1 fs1 (a && bi) h
        constructor
        · rw [hlen, hjobs, List.length_set]
        · rw [hci, hidx]

/-- A successful pass of the loop leaves every index it did not visit
untouched. -/
theorem checkJobsLoop_frame :
    ∀ (idxs : List Nat) (st : Submitter) (fs : FS) (a : Bool)
      {b : Bool} {st2 : Submitter} {fs2 : FS},
      checkJobsLoop idxs st fs a = Except.ok (b, st2, fs2) →
      ∀ k, k ∉ idxs → st2.jobs[k]? = st.jobs[k]?
  | [], st, fs, a, b, st2, fs2, h => by
      simp only [checkJobsLoop, Except.ok.injEq, Prod.mk.injEq] at h
      obtain ⟨-, hst, -⟩ := h
      rw [← hst]; exact fun k _ => rfl
  | i :: rest, st, fs, a, b, st2, fs2, h => by
      unfold checkJobsLoop at h
      split at h
      · exact absurd h (by simp)
      case h_2 bi st1 fs1 hpoll =>
        obtain ⟨job, j2, hjob, hcff, hjobs, hidx⟩ := check_for_finish_ok hpoll
        intro k hk
        have hkr : k ∉ rest := fun hx => hk (List.mem_cons_of_mem i hx)
        have hki : k ≠ i := fun hx => hk (hx ▸ List.mem_cons_self i rest)
        rw [checkJobsLoop_frame rest st1 fs1 (a && bi) h k hkr, hjobs,
          List.getElem?_set_ne hki.symm]

/-- The flag the loop returns is `true` exactly when it started `true` and
every visited index holds a terminal job afterwards (for a duplicate-free
index list). -/
theorem checkJobsLoop_true_iff :
    ∀ (idxs : List Nat) (st : Submitter) (fs : FS) (a : Bool)
      {b : Bool} {st2 : Submitter} {fs2 : FS},
      idxs.Nodup →
      checkJobsLoop idxs st fs a = Except.ok (b, st2, fs2) →
      (b = true ↔ (a = true ∧ ∀ i ∈ idxs, ∀ j, st2.jobs[i]? = some j →
        j.status ≠ JobStatus.RUNNING))
  | [], st, fs, a, b, st2, fs2, _, h => by
      simp only [checkJobsLoop, Except.ok.injEq, Prod.mk.injEq] at h
      obtain ⟨hb, -, -⟩ := h
      simp [← hb]
  | i :: rest, st, fs, a, b, st2, fs2, hnd, h => by
      unfold checkJobsLoop at h
      split at h
      · exact absurd h (by simp)
      case h_2 bi st1 fs1 hpoll =>
        obtain ⟨job, j2, hjob, hcff, hjobs, hidx⟩ := check_for_finish_ok hpoll
        have hir : i ∉ rest := (List.nodup_cons.mp hnd).1
        have ih := checkJobsLoop_true_iff rest st1 fs1 (a && bi)
          (List.nodup_cons.mp hnd).2 h
        have hilen : i < st.jobs.length := (List.getElem?_eq_some.mp hjob).1
        have hat : st2.jobs[i]? = some j2 := by
          rw [checkJobsLoop_frame rest st1 fs1 (a && bi) h i hir, hjobs]
          simp [List.getElem?_set_self, hilen]
        have hbi := checkForFinish_true_iff fs job hcff
        constructor
        · intro hb
          obtain ⟨hab, hrest⟩ := ih.mp hb
          have ha : a = true := by
            cases a <;> simp at hab ⊢
          have hbit : bi = true := by
            cases bi <;> simp at hab ⊢
          refine ⟨ha, ?_⟩
          intro k hk j hj
          rcases List.mem_cons.mp hk with hki | hkr
          · subst hki
            rw [hat] at hj
            cases hj
            exact hbi.mp hbit
          · exact hrest k hkr j hj
        · rintro ⟨ha, hall⟩
          have hbit : bi = true :=
            hbi.mpr (hall i (List.mem_cons_self i rest) j2 hat)
          exact ih.mpr ⟨by rw [ha, hbit]; rfl,
            fun k hk j hj => hall k (List.mem_cons_of_mem i hk) j hj⟩

/-- No early exit: the state and filesystem after a loop pass do not depend
on the incoming `finished` flag — every index is polled either way. -/
theorem checkJobsLoop_acc :
    ∀ (idxs : List Nat) (st : Submitter) (fs : FS) (a1 a2 : Bool),
      Except.map (fun r => (r.2.1, r.2.2)) (checkJobsLoop idxs st fs a1) =
      Except.map (fun r => (r.2.1, r.2.2)) (checkJobsLoop idxs st fs a2)
  | [], st, fs, a1, a2 => rfl
  | i :: rest, st, fs, a1, a2 => by
      unfold checkJobsLoop
      cases Submitter.check_for_finish st fs i with
      | error e => rfl
      | ok r =>
          obtain ⟨bi, st1, fs1⟩ := r
          exact checkJobsLoop_acc rest st1 fs1 (a1 && bi) (a2 && bi)

/-- When `wait` exits its loop normally, every job the tracker knows is at
a terminal status. -/
theorem wait_terminal (env : Nat → FS → FS) :
    ∀ (fuel : Nat) (st : Submitter) (fs : FS) {st2 : Submitter} {fs2 : FS},
      st.current_index = st.jobs.length →
      Submitter.wait env fuel st fs = Except.ok (some (st2, fs2)) →
      ∀ j ∈ st2.jobs, j.status ≠ JobStatus.RUNNING
  | 0, st, fs, st2, fs2, _, h => by
      simp [Submitter.wait] at h
  | fuel + 1, st, fs, st2, fs2, hci, h => by
      unfold Submitter.wait at h
      split at h
      · exact absurd h (by simp)
      case h_2 st1 fs1 heq =>
        simp only [Except.ok.injEq, Option.some.injEq, Prod.mk.injEq] at h
        obtain ⟨hst, hfs⟩ := h
        subst hst; subst hfs
        intro j hj
        obtain ⟨k, hk, hkj⟩ := List.getElem_of_mem hj
        have hiff := checkJobsLoop_true_iff (List.range st.current_index)
          st fs true (List.nodup_range st.current_index) heq
        have hsz := checkJobsLoop_sizes (List.range st.current_index)
          st fs true heq
        have hkci : k < st.current_index := by
          rw [hci, ← hsz.1]; exact hk
        have := (hiff.mp rfl).2 k (List.mem_range.mpr hkci) j
        exact this (by simp [hk, hkj])
      case h_3 st1 fs1 heq =>
        have hsz := checkJobsLoop_sizes (List.range st.current_index)
          st fs true heq
        exact wait_terminal env fuel st1 (env fuel fs1)
          (by rw [hsz.2, hsz.1, hci]) h

/-! ## Submission -/

/-- A completed call to `submit`: the job id came from the spawn parse, the
`Job` was built by `Job.__init__` with the derived file names, appended to
the collection, and the counter moved up by one. -/
theorem submit_ok {st : Submitter} {spawn : SpawnResult} {name : String}
    {job : Job} {st2 : Submitter}
    (h : Submitter.submit st spawn name = Except.ok (job, st2)) :
    ∃ jid, Submitter.submit_sge_script spawn = Except.ok jid ∧
      job = Job.init st.current_index name jid
        ("output_" ++ toString st.current_index)
        ("error_" ++ toString st.current_index) ∧
      st2.jobs = st.jobs ++ [job] ∧
      st2.current_index = st.current_index + 1 := by
  unfold Submitter.submit at h
  split at h
  · exact absurd h (by simp)
  case h_2 jid hjid =>
    simp only [Except.ok.injEq, Prod.mk.injEq] at h
    obtain ⟨hjob, hst⟩ := h
    exact ⟨jid, hjid, hjob.symm, by rw [← hst, hjob], by rw [← hst]⟩

/-- The tracker's structural invariant: the counter equals the collection
length, and the job stored at each position carries that position as its
index and the file names derived from it. -/
def trackerInv (st : Submitter) : Prop :=
  st.current_index = st.jobs.length ∧
  ∀ (i : Nat) (j : Job), st.jobs[i]? = some j →
    j.index = i ∧ j.output_file = "output_" ++ toString i ∧
    j.error_file = "error_" ++ toString i

/-- A completed `submit` preserves the tracker invariant and grows the
collection by exactly one job. -/
theorem submit_trackerInv {st : Submitter} {spawn : SpawnResult}
    {name : String} {job : Job} {st2 : Submitter} (hinv : trackerInv st)
    (h : Submitter.submit st spawn name = Except.ok (job, st2)) :
    trackerInv st2 ∧ st2.jobs.length = st.jobs.length + 1 := by
  obtain ⟨jid, -, hjob, hjobs, hci⟩ := submit_ok h
  obtain ⟨hlen, hfields⟩ := hinv
  have hlen2 : st2.jobs.length = st.jobs.length + 1 := by
    rw [hjobs, List.length_append, List.length_singleton]
  refine ⟨⟨by rw [hci, hlen, hlen2], ?_⟩, hlen2⟩
  intro i j hj
  rw [hjobs, List.getElem?_append] at hj
  split at hj
  · exact hfields i j hj
  case isFalse hge =>
    have hi : i = st.jobs.length := by
      have hlt : i - st.jobs.length < 1 := by
        simpa using (List.getElem?_eq_some.mp hj).1
      omega
    subst hi
    simp only [Nat.sub_self, List.getElem?_cons_zero, Option.some.injEq] at hj
    subst hj
    rw [hjob, ← hlen]
    exact ⟨rfl, rfl, rfl⟩

/-- Any run of completed submissions from a state satisfying the invariant
keeps it and adds one job per submission. -/
theorem runSubmits_trackerInv :
    ∀ (inputs : List (SpawnResult × String)) (st : Submitter)
      {st2 : Submitter}, trackerInv st →
      runSubmits st inputs = Except.ok st2 →
      trackerInv st2 ∧ st2.jobs.length = st.jobs.length + inputs.length
  | [], st, st2, hinv, h => by
      simp only [runSubmits, Except.ok.injEq] at h
      subst h
      exact ⟨hinv, by simp⟩
  | (spawn, name) :: rest, st, st2, hinv, h => by
      unfold runSubmits at h
      split at h
      · exact absurd h (by simp)
      case h_2 job st1 hsub =>
        obtain ⟨hinv1, hlen1⟩ := submit_trackerInv hinv hsub
        obtain ⟨hinv2, hlen2⟩ := runSubmits_trackerInv rest st1 hinv1 h
        exact ⟨hinv2, by rw [hlen2, hlen1, List.length_cons]; omega⟩

/-! ## Job-id parsing -/

/-- The decimal value of a plain digit run (the spec-side notion used to
state the parsing property). -/
def natOfDigits (l : List Char) : Nat :=
  l.foldl (fun a c => 10 * a + (c.toNat - '0'.toNat)) 0

/-- The search `bytesFindAux` lands on the first occurrence: if `pat` starts right at
the boundary of `pre ++ s` and at no position inside `pre`, the search from
accumulator `i` answers `i + pre.length`. -/
theorem bytesFindAux_boundary (pat : List Char) :
    ∀ (pre s : List Char) (i : Nat),
      pat.isPrefixOf s = true →
      (∀ k, k < pre.length → pat.isPrefixOf ((pre ++ s).drop k) = false) →
      bytesFindAux pat (pre ++ s) i = (i : Int) + pre.length
  | [], s, i, hpfx, _ => by
      cases s with
      | nil => simp [bytesFindAux, hpfx]
      | cons c t => simp [bytesFindAux, hpfx]
  | c :: pre, s, i, hpfx, hno => by
      have h0 : pat.isPrefixOf (c :: (pre ++ s)) = false := by
        have := hno 0 (by simp)
        simpa using this
      have hrec := bytesFindAux_boundary pat pre s (i + 1) hpfx
        (fun k hk => by
          have := hno (k + 1) (by simpa using Nat.succ_lt_succ hk)
          simpa using this)
      have hunfold : bytesFindAux pat ((c :: pre) ++ s) i
          = if pat.isPrefixOf (c :: (pre ++ s)) then (i : Int)
            else bytesFindAux pat (pre ++ s) (i + 1) := rfl
      rw [hunfold, h0, if_neg (by simp), hrec]
      simp only [List.length_cons]
      push_cast
      ring

/-- Searching for a space in `digits ++ ' ' :: post`, where `digits` holds
no space, answers exactly `digits.length`. -/
theorem bytesFind_space (digits post : List Char)
    (h : ∀ c ∈ digits, c ≠ ' ') :
    bytesFind (digits ++ ' ' :: post) [' '] = (digits.length : Int) := by
  have := bytesFindAux_boundary [' '] digits (' ' :: post) 0
    (by simp [List.isPrefixOf])
    (fun k hk => by
      obtain ⟨x, t, hxt⟩ : ∃ x t, digits.drop k = x :: t := by
        cases hd : digits.drop k with
        | nil => exact absurd (List.drop_eq_nil_iff.mp hd) (by omega)
        | cons x t => exact ⟨x, t, rfl⟩
      have hx : x ∈ digits := by
        have : x ∈ digits.drop k := by rw [hxt]; exact List.mem_cons_self x t
        exact List.mem_of_mem_drop this
      have hxs : x ≠ ' ' := h x hx
      rw [List.drop_append_of_le_length (by omega), hxt]
      show (' ' == x && List.isPrefixOf ([] : List Char) (t ++ ' ' :: post)) = false
      rw [beq_eq_false_iff_ne.mpr (fun hc => hxs hc.symm)]
      rfl)
  simpa [bytesFind] using this

/-- The function `dropWhile` is the identity when no element satisfies the predicate. -/
theorem dropWhile_eq_self_of_none {p : Char → Bool} :
    ∀ l : List Char, (∀ c ∈ l, p c = false) → l.dropWhile p = l
  | [], _ => rfl
  | c :: t, h => by
      have := h c (List.mem_cons_self c t)
      simp [List.dropWhile_cons, this]

/-- A run of digit characters is a valid literal body continuation. -/
theorem digitRunRest_of_digits :
    ∀ l : List Char, (∀ c ∈ l, c.isDigit = true) → digitRunRest l = true
  | [], _ => rfl
  | [c], h => by
      have hc := h c (List.mem_cons_self c [])
      simpa [digitRunRest] using hc
  | c :: d :: t, h => by
      have hc := h c (List.mem_cons_self c (d :: t))
      have ht := digitRunRest_of_digits (d :: t)
        (fun e he => h e (List.mem_cons_of_mem c he))
      simp [digitRunRest, hc, ht]

/-- A digit is not one of the whitespace bytes `int()` strips. -/
theorem isPySpace_of_digit {c : Char} (h : c.isDigit = true) :
    isPySpace c = false := by
  unfold isPySpace
  by_contra hc
  simp only [Bool.not_eq_false, Bool.or_eq_true, beq_iff_eq] at hc
  rcases hc with ((((h1 | h1) | h1) | h1) | h1) | h1 <;>
    · subst h1; simp [Char.isDigit] at h

/-- Python `int()` on a nonempty plain digit run is its decimal value. -/
theorem pyInt_of_digits (l : List Char) (hne : l ≠ [])
    (hd : ∀ c ∈ l, c.isDigit = true) :
    pyInt l = Except.ok (natOfDigits l : Int) := by
  have hstrip : pyStrip l = l := by
    unfold pyStrip
    rw [dropWhile_eq_self_of_none l (fun c hc => isPySpace_of_digit (hd c hc)),
      dropWhile_eq_self_of_none l.reverse
        (fun c hc => isPySpace_of_digit (hd c (List.mem_reverse.mp hc))),
      List.reverse_reverse]
  have hval : pyDigitsVal l = natOfDigits l := by
    unfold pyDigitsVal natOfDigits
    rw [List.filter_eq_self.mpr]
    intro c hc
    have := hd c hc
    simp only [decide_eq_true_eq]
    intro hc2
    subst hc2
    simp [Char.isDigit] at this
  unfold pyInt
  rw [hstrip]
  cases l with
  | nil => exact absurd rfl hne
  | cons c t =>
      have hc := hd c (List.mem_cons_self c t)
      have hcp : ¬(c = '+') := fun hx => by subst hx; simp [Char.isDigit] at hc
      have hcm : ¬(c = '-') := fun hx => by subst hx; simp [Char.isDigit] at hc
      have hpd : pyDigits (c :: t) = true := by
        show (c.isDigit && digitRunRest t) = true
        rw [hc, digitRunRest_of_digits t
          (fun d hdm => hd d (List.mem_cons_of_mem c hdm))]
        rfl
      simp [hcp, hcm, hpd, hval]

/-- A digit character is not a space. -/
theorem digit_ne_space {c : Char} (h : c.isDigit = true) : c ≠ ' ' := by
  intro hc
  subst hc
  simp [Char.isDigit] at h

/-- Parsing lines 54-61 on output whose FIRST occurrence of the marker is
immediately followed by a nonempty space-terminated digit run: the parsed
job id is the run's decimal value. -/
theorem parseJobId_of_pattern (pre digits post : List Char)
    (hne : digits ≠ []) (hdig : ∀ c ∈ digits, c.isDigit = true)
    (hfirst : ∀ k, k < pre.length →
      successMarker.isPrefixOf
        ((pre ++ (successMarker ++ (digits ++ ' ' :: post))).drop k) = false) :
    parseJobId (pre ++ (successMarker ++ (digits ++ ' ' :: post))) =
      Except.ok ((natOfDigits digits : Int)) := by
  have hpfx : successMarker.isPrefixOf
      (successMarker ++ (digits ++ ' ' :: post)) = true :=
    List.isPrefixOf_iff_prefix.mpr (List.prefix_append _ _)
  have hfind : bytesFind (pre ++ (successMarker ++ (digits ++ ' ' :: post)))
      successMarker = (pre.length : Int) := by
    have := bytesFindAux_boundary successMarker pre
      (successMarker ++ (digits ++ ' ' :: post)) 0 hpfx hfirst
    simpa [bytesFind] using this
  have hneg : ¬((pre.length : Int) = -1) := by omega
  have hdrop : (pre ++ (successMarker ++ (digits ++ ' ' :: post))).drop
      (pre.length + successMarker.length) = digits ++ ' ' :: post := by
    rw [← List.drop_drop, List.drop_left, List.drop_left]
  have hinner : bytesFind (digits ++ ' ' :: post) [' ']
      = (digits.length : Int) :=
    bytesFind_space digits post (fun c hc => digit_ne_space (hdig c hc))
  have hpy : pyInt digits = Except.ok ((natOfDigits digits : Int)) :=
    pyInt_of_digits digits hne hdig
  unfold parseJobId
  rw [hfind, if_neg hneg, Int.toNat_natCast]
  simp only [hdrop, hinner, add_sub_cancel_right, Int.toNat_natCast,
    List.take_left]
  exact hpy

/-- Decidable equality on `Except`, so that runs of the model on concrete
inputs can be checked by `decide`. -/
instance {ε α : Type} [DecidableEq ε] [DecidableEq α] :
    DecidableEq (Except ε α) := fun x y =>
  match x, y with
  | Except.ok a, Except.ok b =>
      if h : a = b then isTrue (by rw [h])
      else isFalse (by intro hc; cases hc; exact h rfl)
  | Except.error e, Except.error f =>
      if h : e = f then isTrue (by rw [h])
      else isFalse (by intro hc; cases hc; exact h rfl)
  | Except.ok _, Except.error _ => isFalse (by intro hc; cases hc)
  | Except.error _, Except.ok _ => isFalse (by intro hc; cases hc)

/-! ## Claims -/

/-- C1.  The claim says that for a `RUNNING` job whose non-empty error file
coexists with a non-empty output file, one poll merges the error content
into the captured output, deletes both files and returns terminal.  The
code cannot do this: line 97 reads `ob.output_string += ...` where the name
`ob` is unbound, so on exactly this path the poll raises `NameError` before
touching either file, and the merge never happens.  Concretely, with output
file content `"result\n"` and error file content `"diag\n"`: -/
theorem runsge_c1_merge_path_raises :
    checkForFinish [("output_0", "result\n"), ("error_0", "diag\n")]
      (Job.init 0 "a.sge" 7 "output_0" "error_0")
      = Except.error PyError.nameError := by
  decide

/-- C2.  The merge path never assigns `ERROR` — but it also does not fall
through to `FINISHED` as the claim says: it raises `NameError` (line 97's
unbound `ob`), shown here on a concrete running job with non-empty output
and error files.  The rest of the statement holds: a non-raising poll never
moves a job into `ERROR`, and submission never creates an `ERROR` job, so
no tracker operation ever sets a job's status to `ERROR`. -/
theorem runsge_c2_error_status_never_set :
    checkForFinish [("output_1", "data\n"), ("error_1", "oops\n")]
      (Job.init 1 "b.sge" 8 "output_1" "error_1")
      = Except.error PyError.nameError ∧
    (∀ (fs : FS) (job : Job) (b : Bool) (j2 : Job) (fs2 : FS),
      checkForFinish fs job = Except.ok (b, j2, fs2) →
      job.status ≠ JobStatus.ERROR → j2.status ≠ JobStatus.ERROR) ∧
    (∀ (st : Submitter) (spawn : SpawnResult) (name : String) (job : Job)
      (st2 : Submitter),
      Submitter.submit st spawn name = Except.ok (job, st2) →
      job.status ≠ JobStatus.ERROR) := by
  refine ⟨by decide, ?_, ?_⟩
  · intro fs job b j2 fs2 h hne
    rcases (checkForFinish_fields fs job h).2.2.2.2.2 with hs | hs
    · rw [hs]; exact hne
    · rw [hs]; intro hc; cases hc
  · intro st spawn name job st2 h
    obtain ⟨jid, -, hjob, -, -⟩ := submit_ok h
    rw [hjob]
    unfold Job.init
    dsimp only
    split <;> intro hc <;> cases hc

/-- C2 witness: a concrete non-raising poll (running job, no output file
yet) satisfying the hypotheses of the second conjunct, whose status is
confirmed not `ERROR` through the theorem. -/
theorem runsge_c2_witness :
    checkForFinish [] (Job.init 0 "w.sge" 3 "output_0" "error_0")
      = Except.ok (false, Job.init 0 "w.sge" 3 "output_0" "error_0", []) ∧
    (Job.init 0 "w.sge" 3 "output_0" "error_0").status ≠ JobStatus.ERROR :=
  ⟨by decide,
    runsge_c2_error_status_never_set.2.1 [] (Job.init 0 "w.sge" 3 "output_0"
      "error_0") false (Job.init 0 "w.sge" 3 "output_0" "error_0") []
      (by decide) (by decide)⟩

/-- C3.  When the external submission tool cannot be invoked at all,
`Popen` raises `FileNotFoundError`; nothing in `submit` catches it, so the
error propagates to the caller and no `Job` (in particular no `FAILED`
job) is returned. -/
theorem runsge_c3_unavailable_propagates (st : Submitter) (name : String) :
    Submitter.submit st SpawnResult.unavailable name
      = Except.error PyError.fileNotFoundError := rfl

/-- C5.  A submission without the success marker yields the sentinel id
`-1`, hence a `Job` that is `FAILED` from construction; a poll of any
non-`RUNNING` job — in particular a `FAILED` one — answers terminal at once
and changes neither the job nor the filesystem; `FAILED` holds at
construction exactly when the id is the sentinel; and polling preserves
both the id and the `FAILED` status, so the equivalence is fixed for the
job's lifetime. -/
theorem runsge_c5_failed_jobs :
    (∀ (index : Nat) (name output_file error_file : String),
      (Job.init index name (-1) output_file error_file).status
        = JobStatus.FAILED) ∧
    (∀ (fs : FS) (job : Job), job.status = JobStatus.FAILED →
      checkForFinish fs job = Except.ok (true, job, fs)) ∧
    (∀ (index : Nat) (name : String) (job_id : Int)
      (output_file error_file : String),
      (Job.init index name job_id output_file error_file).status
        = JobStatus.FAILED ↔ job_id = -1) ∧
    (∀ (fs : FS) (job : Job) (b : Bool) (j2 : Job) (fs2 : FS),
      checkForFinish fs job = Except.ok (b, j2, fs2) →
      j2.job_id = job.job_id ∧
      (j2.status = JobStatus.FAILED ↔ job.status = JobStatus.FAILED)) := by
  refine ⟨?_, ?_, ?_, ?_⟩
  · intro index name output_file error_file
    simp [Job.init]
  · intro fs job h
    exact checkForFinish_not_running fs job (by rw [h]; intro hc; cases hc)
  · intro index name job_id output_file error_file
    by_cases h : job_id = -1 <;> simp [Job.init, h]
  · intro fs job b j2 fs2 h
    rcases checkForFinish_ok_cases fs job h with
      ⟨hj, -, -⟩ | ⟨-, hrun, out, -, -, hj, -⟩
    · subst hj; exact ⟨rfl, Iff.rfl⟩
    · subst hj
      refine ⟨rfl, ?_⟩
      rw [hrun]
      constructor <;> intro hc <;> cases hc

/-- C5 witness: a concrete failed job polled against a filesystem that even
holds a non-empty file under the job's output name — the poll still
answers terminal, reads nothing and deletes nothing. -/
theorem runsge_c5_witness :
    (Job.init 0 "f.sge" (-1) "output_0" "error_0").status
      = JobStatus.FAILED ∧
    checkForFinish [("output_0", "x")]
      (Job.init 0 "f.sge" (-1) "output_0" "error_0")
      = Except.ok (true, Job.init 0 "f.sge" (-1) "output_0" "error_0",
        [("output_0", "x")]) :=
  ⟨by decide,
    runsge_c5_failed_jobs.2.1 [("output_0", "x")]
      (Job.init 0 "f.sge" (-1) "output_0" "error_0") (by decide)⟩

/-- C9.  While a running job's output file is absent, or present with zero
length, a poll answers not-terminal and is a pure observation: the job
(status and captured output included) and the filesystem come back exactly
as they were, so nothing is deleted. -/
theorem runsge_c9_pending_is_pure (fs : FS) (job : Job)
    (hrun : job.status = JobStatus.RUNNING)
    (hout : FS.read fs job.output_file = none ∨
      FS.read fs job.output_file = some "") :
    checkForFinish fs job = Except.ok (false, job, fs) := by
  have hnr : ¬(job.status ≠ JobStatus.RUNNING) := by simp [hrun]
  unfold checkForFinish
  rw [if_neg hnr]
  rcases hout with h | h <;> simp [h]

/-- C9 witness: both pending shapes on a concrete running job — no output
file at all, and an output file created empty. -/
theorem runsge_c9_witness :
    ((Job.init 0 "p.sge" 9 "output_0" "error_0").status
        = JobStatus.RUNNING ∧
      checkForFinish [("error_0", "e")]
        (Job.init 0 "p.sge" 9 "output_0" "error_0")
        = Except.ok (false, Job.init 0 "p.sge" 9 "output_0" "error_0",
          [("error_0", "e")])) ∧
    checkForFinish [("output_0", "")]
      (Job.init 0 "p.sge" 9 "output_0" "error_0")
      = Except.ok (false, Job.init 0 "p.sge" 9 "output_0" "error_0",
        [("output_0", "")]) :=
  ⟨⟨by decide,
    runsge_c9_pending_is_pure [("error_0", "e")]
      (Job.init 0 "p.sge" 9 "output_0" "error_0") (by decide)
      (Or.inl (by decide))⟩,
    runsge_c9_pending_is_pure [("output_0", "")]
      (Job.init 0 "p.sge" 9 "output_0" "error_0") (by decide)
      (Or.inr (by decide))⟩

/-- C10.  Two collaborator outputs that contain the marker but are not
followed by a space-terminated digit run: `"Your job abc def"` (letters
before the next space) and `"Your job 99"` (no space after the digit run).
In both, `int()` raises `ValueError`, which `submit` does not catch, so the
caller sees the exception instead of a sentinel `FAILED` job. -/
theorem runsge_c10_malformed_after_marker :
    Submitter.submit Submitter.init
      (SpawnResult.output ("Your job abc def".toList)) "x.sge"
      = Except.error PyError.valueError ∧
    Submitter.submit Submitter.init
      (SpawnResult.output ("Your job 99".toList)) "x.sge"
      = Except.error PyError.valueError := by
  refine ⟨by decide, by decide⟩

/-- C6.  For a running job with a non-empty output file and no error file
(or an empty one): one poll returns terminal, appends the whole output file
text to the captured output, sets `FINISHED` and deletes the output file;
polling the resulting job again is a no-op that returns terminal with the
job and the filesystem untouched. -/
theorem runsge_c6_finish_once (fs : FS) (job : Job) (out : String)
    (hrun : job.status = JobStatus.RUNNING)
    (hread : FS.read fs job.output_file = some out)
    (hlen : out.length ≠ 0)
    (herr : FS.read fs job.error_file = none ∨
      FS.read fs job.error_file = some "") :
    checkForFinish fs job = Except.ok (true,
      { job with status := JobStatus.FINISHED,
                 output_string := job.output_string ++ out },
      FS.remove fs job.output_file) ∧
    ∀ fs2 : FS, checkForFinish fs2
      { job with status := JobStatus.FINISHED,
                 output_string := job.output_string ++ out }
      = Except.ok (true,
        { job with status := JobStatus.FINISHED,
                   output_string := job.output_string ++ out }, fs2) := by
  constructor
  · have hnr : ¬(job.status ≠ JobStatus.RUNNING) := by simp [hrun]
    unfold checkForFinish
    rw [if_neg hnr]
    rcases herr with h | h
    · simp [hread, hlen, h]
    · simp [hread, hlen, h]
  · intro fs2
    exact checkForFinish_not_running fs2 _ (by intro hc; cases hc)

/-- C6 witness: a running job with output content `"ok\n"` and no error
file; the first poll consumes the file, the second changes nothing even on
a fresh filesystem. -/
theorem runsge_c6_witness :
    (Job.init 0 "r.sge" 11 "output_0" "error_0").status
      = JobStatus.RUNNING ∧
    checkForFinish [("output_0", "ok\n")]
      (Job.init 0 "r.sge" 11 "output_0" "error_0")
      = Except.ok (true,
        { Job.init 0 "r.sge" 11 "output_0" "error_0" with
            status := JobStatus.FINISHED,
            output_string :=
              (Job.init 0 "r.sge" 11 "output_0" "error_0").output_string
                ++ "ok\n" },
        FS.remove [("output_0", "ok\n")] "output_0") ∧
    checkForFinish [("output_0", "later")]
      { Job.init 0 "r.sge" 11 "output_0" "error_0" with
          status := JobStatus.FINISHED,
          output_string :=
            (Job.init 0 "r.sge" 11 "output_0" "error_0").output_string
              ++ "ok\n" }
      = Except.ok (true,
        { Job.init 0 "r.sge" 11 "output_0" "error_0" with
            status := JobStatus.FINISHED,
            output_string :=
              (Job.init 0 "r.sge" 11 "output_0" "error_0").output_string
                ++ "ok\n" }, [("output_0", "later")]) :=
  ⟨by decide,
    (runsge_c6_finish_once [("output_0", "ok\n")]
      (Job.init 0 "r.sge" 11 "output_0" "error_0") "ok\n" (by decide)
      (by decide) (by decide) (Or.inl (by decide))).1,
    (runsge_c6_finish_once [("output_0", "ok\n")]
      (Job.init 0 "r.sge" 11 "output_0" "error_0") "ok\n" (by decide)
      (by decide) (by decide) (Or.inl (by decide))).2 [("output_0", "later")]⟩

/-- C7.  `wait` only returns once no job is `RUNNING` any more (every job
then being `FAILED`, `FINISHED` or `ERROR`); it returns as soon as a poll
cycle reports all-terminal; the all-terminal flag of a cycle is `true`
exactly when every index below the counter holds a terminal job after the
cycle; the cycle runs `checkJobsLoop` over `List.range current_index`
(ascending indices) and has no early exit: the resulting state and
filesystem do not depend on the running flag. -/
theorem runsge_c7_wait_terminal :
    (∀ (env : Nat → FS → FS) (fuel : Nat) (st : Submitter) (fs : FS)
      (st2 : Submitter) (fs2 : FS),
      st.current_index = st.jobs.length →
      Submitter.wait env fuel st fs = Except.ok (some (st2, fs2)) →
      ∀ j ∈ st2.jobs, j.status ≠ JobStatus.RUNNING) ∧
    (∀ (env : Nat → FS → FS) (fuel : Nat) (st : Submitter) (fs : FS)
      (st2 : Submitter) (fs2 : FS),
      Submitter.check_finished_jobs st fs = Except.ok (true, st2, fs2) →
      Submitter.wait env (fuel + 1) st fs = Except.ok (some (st2, fs2))) ∧
    (∀ (st : Submitter) (fs : FS) (b : Bool) (st2 : Submitter) (fs2 : FS),
      Submitter.check_finished_jobs st fs = Except.ok (b, st2, fs2) →
      (b = true ↔ ∀ (i : Nat), i < st.current_index → ∀ (j : Job),
        st2.jobs[i]? = some j → j.status ≠ JobStatus.RUNNING)) ∧
    (∀ (st : Submitter) (fs : FS),
      Submitter.check_finished_jobs st fs
        = checkJobsLoop (List.range st.current_index) st fs true) ∧
    (∀ (idxs : List Nat) (st : Submitter) (fs : FS) (a1 a2 : Bool),
      Except.map (fun r => (r.2.1, r.2.2)) (checkJobsLoop idxs st fs a1)
        = Except.map (fun r => (r.2.1, r.2.2)) (checkJobsLoop idxs st fs a2)) := by
  refine ⟨?_, ?_, ?_, fun st fs => rfl, checkJobsLoop_acc⟩
  · intro env fuel st fs st2 fs2 hci h
    exact wait_terminal env fuel st fs hci h
  · intro env fuel st fs st2 fs2 h
    unfold Submitter.wait
    rw [h]
  · intro st fs b st2 fs2 h
    have := checkJobsLoop_true_iff (List.range st.current_index) st fs true
      (List.nodup_range st.current_index) h
    simpa [List.mem_range] using this

/-- C7 witness: a tracker holding one already-failed job; one `wait` cycle
returns at once, and the theorem certifies the job terminal. -/
theorem runsge_c7_witness :
    (Submitter.mk [Job.init 0 "a.sge" (-1) "output_0" "error_0"] 1).current_index
      = (Submitter.mk [Job.init 0 "a.sge" (-1) "output_0" "error_0"] 1).jobs.length ∧
    Submitter.wait (fun _ f => f) 1
      (Submitter.mk [Job.init 0 "a.sge" (-1) "output_0" "error_0"] 1) []
      = Except.ok (some
        (Submitter.mk [Job.init 0 "a.sge" (-1) "output_0" "error_0"] 1, [])) ∧
    (Job.init 0 "a.sge" (-1) "output_0" "error_0").status ≠ JobStatus.RUNNING :=
  ⟨by decide, by decide,
    runsge_c7_wait_terminal.1 (fun _ f => f) 1
      (Submitter.mk [Job.init 0 "a.sge" (-1) "output_0" "error_0"] 1) []
      (Submitter.mk [Job.init 0 "a.sge" (-1) "output_0" "error_0"] 1) []
      (by decide) (by decide)
      (Job.init 0 "a.sge" (-1) "output_0" "error_0") (by decide)⟩

/-- C8.  After any completed run of N submissions from a fresh tracker, the
collection holds exactly N jobs, the counter equals the collection length,
and the job stored at each position i carries index i and the file names
`output_i` / `error_i`. -/
theorem runsge_c8_indices (inputs : List (SpawnResult × String))
    (st2 : Submitter) (h : runSubmits Submitter.init inputs = Except.ok st2) :
    st2.jobs.length = inputs.length ∧
    st2.current_index = st2.jobs.length ∧
    ∀ (i : Nat) (j : Job), st2.jobs[i]? = some j →
      j.index = i ∧ j.output_file = "output_" ++ toString i ∧
      j.error_file = "error_" ++ toString i := by
  have hinv0 : trackerInv Submitter.init :=
    ⟨rfl, by intro i j hj; simp [Submitter.init] at hj⟩
  obtain ⟨⟨hci, hfields⟩, hlen⟩ :=
    runSubmits_trackerInv inputs Submitter.init hinv0 h
  exact ⟨by simpa [Submitter.init] using hlen, hci, hfields⟩

/-- C8 witness: two concrete submissions (one accepted with id 5, one
rejected); the tracker ends with jobs at positions 0 and 1 carrying those
indices and the derived file names. -/
theorem runsge_c8_witness :
    runSubmits Submitter.init
      [(SpawnResult.output ("Your job 5 x".toList), "a.sge"),
       (SpawnResult.output ("nope".toList), "b.sge")]
      = Except.ok (Submitter.mk
        [Job.init 0 "a.sge" 5 "output_0" "error_0",
         Job.init 1 "b.sge" (-1) "output_1" "error_1"] 2) ∧
    (Submitter.mk
        [Job.init 0 "a.sge" 5 "output_0" "error_0",
         Job.init 1 "b.sge" (-1) "output_1" "error_1"] 2).jobs.length = 2 ∧
    ((Job.init 1 "b.sge" (-1) "output_1" "error_1").index = 1 ∧
      (Job.init 1 "b.sge" (-1) "output_1" "error_1").output_file
        = "output_" ++ toString 1 ∧
      (Job.init 1 "b.sge" (-1) "output_1" "error_1").error_file
        = "error_" ++ toString 1) :=
  ⟨by decide,
    (runsge_c8_indices
      [(SpawnResult.output ("Your job 5 x".toList), "a.sge"),
       (SpawnResult.output ("nope".toList), "b.sge")]
      (Submitter.mk
        [Job.init 0 "a.sge" 5 "output_0" "error_0",
         Job.init 1 "b.sge" (-1) "output_1" "error_1"] 2) (by decide)).1,
    (runsge_c8_indices
      [(SpawnResult.output ("Your job 5 x".toList), "a.sge"),
       (SpawnResult.output ("nope".toList), "b.sge")]
      (Submitter.mk
        [Job.init 0 "a.sge" 5 "output_0" "error_0",
         Job.init 1 "b.sge" (-1) "output_1" "error_1"] 2) (by decide)).2.2 1
      (Job.init 1 "b.sge" (-1) "output_1" "error_1") (by decide)⟩

/-- Lines 63-74 on a spawn whose output parses to job id `n`: the returned
job and state, spelled out. -/
theorem submit_parse_ok {s : List Char} {n : Int} (st : Submitter)
    (name : String) (h : parseJobId s = Except.ok n) :
    Submitter.submit st (SpawnResult.output s) name
      = Except.ok (Job.init st.current_index name n
          ("output_" ++ toString st.current_index)
          ("error_" ++ toString st.current_index),
        Submitter.mk (st.jobs ++ [Job.init st.current_index name n
          ("output_" ++ toString st.current_index)
          ("error_" ++ toString st.current_index)])
          (st.current_index + 1)) := by
  simp only [Submitter.submit, Submitter.submit_sge_script, h]

/-- When the marker is absent, lines 56-57 return the sentinel. -/
theorem parseJobId_no_marker {s : List Char}
    (h : bytesFind s successMarker = -1) :
    parseJobId s = Except.ok (-1) := by
  simp only [parseJobId, h, reduceCtorEq, if_pos]

/-- C4 (amended).  For every collaborator output whose FIRST occurrence of
`"Your job "` is immediately followed by a nonempty run of decimal digits
terminated by a space, `submit` parses that run as the job id and returns a
`RUNNING` job carrying it; when the marker is absent the parsed id is the
sentinel `-1` and the returned job is `FAILED`.  (The restriction to the
first occurrence is what the code's `find` actually implements; see the
counterexample.) -/
theorem runsge_c4_first_marker_parse :
    (∀ (st : Submitter) (name : String) (pre digits post : List Char),
      digits ≠ [] → (∀ c ∈ digits, c.isDigit = true) →
      (∀ k, k < pre.length → successMarker.isPrefixOf
        ((pre ++ (successMarker ++ (digits ++ ' ' :: post))).drop k)
          = false) →
      ∃ job st2, Submitter.submit st
          (SpawnResult.output (pre ++ (successMarker ++ (digits ++ ' ' :: post))))
          name = Except.ok (job, st2) ∧
        job.job_id = (natOfDigits digits : Int) ∧
        job.status = JobStatus.RUNNING) ∧
    (∀ (st : Submitter) (name : String) (s : List Char),
      bytesFind s successMarker = -1 →
      ∃ job st2, Submitter.submit st (SpawnResult.output s) name
          = Except.ok (job, st2) ∧
        job.job_id = -1 ∧ job.status = JobStatus.FAILED) := by
  constructor
  · intro st name pre digits post hne hdig hfirst
    have hp := parseJobId_of_pattern pre digits post hne hdig hfirst
    refine ⟨_, _, submit_parse_ok st name hp, rfl, ?_⟩
    show (if ((natOfDigits digits : Int)) = -1 then JobStatus.FAILED
          else JobStatus.RUNNING) = JobStatus.RUNNING
    exact if_neg (by omega)
  · intro st name s h
    refine ⟨_, _, submit_parse_ok st name (parseJobId_no_marker h), rfl, ?_⟩
    show (if ((-1 : Int)) = -1 then JobStatus.FAILED
          else JobStatus.RUNNING) = JobStatus.FAILED
    exact if_pos rfl

/-- C4 witness: surrounding text before and after the marker; the digit run
`12345` becomes the job id of a `RUNNING` job, and a markerless output
yields a `FAILED` job with the sentinel id. -/
theorem runsge_c4_witness :
    "12345".toList ≠ [] ∧
    ("12345".toList).all Char.isDigit = true ∧
    (∃ job st2, Submitter.submit Submitter.init
        (SpawnResult.output ("Submitting: ".toList ++
          (successMarker ++ ("12345".toList ++ ' ' :: "(script.sge)".toList))))
        "a.sge" = Except.ok (job, st2) ∧
      job.job_id = (natOfDigits ("12345".toList) : Int) ∧
      job.status = JobStatus.RUNNING) ∧
    (∃ job st2, Submitter.submit Submitter.init
        (SpawnResult.output ("qsub: no usable output".toList)) "b.sge"
        = Except.ok (job, st2) ∧
      job.job_id = -1 ∧ job.status = JobStatus.FAILED) :=
  ⟨by decide, by decide,
    runsge_c4_first_marker_parse.1 Submitter.init "a.sge"
      ("Submitting: ".toList) ("12345".toList) ("(script.sge)".toList)
      (by decide) (by decide) (by decide),
    runsge_c4_first_marker_parse.2 Submitter.init "b.sge"
      ("qsub: no usable output".toList) (by decide)⟩

/-- The text of the C4 counterexample: it contains the marker followed by a
space-terminated digit run (its second marker occurrence), but the FIRST
occurrence of the marker is followed by letters. -/
def c4text : List Char := "Your job ab Your job 12 ".toList

/-- C4 counterexample.  `c4text` contains `"Your job "` immediately
followed by the digit run `12` and a space (shown by the decomposition),
yet the parser slices after the FIRST marker occurrence, hands `"ab"` to
`int()`, and `submit` raises `ValueError` instead of returning a `RUNNING`
job with id 12 — refuting the claim as stated (quantified over every text
containing the pattern). -/
theorem runsge_c4_counterexample :
    c4text = "Your job ab ".toList ++
      (successMarker ++ ("12".toList ++ ' ' :: [])) ∧
    "12".toList ≠ [] ∧
    ("12".toList).all Char.isDigit = true ∧
    natOfDigits ("12".toList) = 12 ∧
    parseJobId c4text = Except.error PyError.valueError ∧
    parseJobId c4text ≠ Except.ok ((12 : Int)) ∧
    Submitter.submit Submitter.init (SpawnResult.output c4text) "x.sge"
      = Except.error PyError.valueError :=
  ⟨by decide, by decide, by decide, by decide, by decide, by decide,
    by decide⟩
